import Mathlib

/-!
Shallow embedding of `albumentations/core/transforms_interface.py`
(`BasicTransform`, `DualTransform`, `NoOp`).

Python values flowing through a transform call are modelled by `Val`:
`Val.none` is Python `None`, `Val.img r c px` is a numpy array of shape
`(r, c, ...)` (so `.shape[0] = r`, `.shape[1] = c`), `Val.dict` models a
`dict`, `Val.tup` and `Val.list` model tuples and lists.  Python dicts are
association lists kept in insertion order (as CPython dicts are); update
of an existing key keeps its position, a new key is appended.  Raised
exceptions are modelled by `Except Err`.  The module-level random source
`random.random()` is modelled by `RNG`, a stream of rationals in `[0,1)`;
one call to `RNG.next` is one consumed draw.
-/

inductive Err where
  | keyError : String → Err
  | typeError : Err
  | attributeError : Err
  | assertionError : Err
  | notImplementedError : String → Err
deriving DecidableEq

inductive Val where
  | none : Val
  | int : Int → Val
  | str : String → Val
  | img : Nat → Nat → List Int → Val
  | list : List Val → Val
  | tup : List Val → Val
  | dict : List (String × Val) → Val

/-- Python dict with string keys, in insertion order. -/
abbrev Dict := List (String × Val)

/-- A per-target handler: a bound method `f(arg, **params)`. -/
abbrev Handler := Val → Dict → Except Err Val

/-- Python `arg is None`. -/
def Val.isNone : Val → Bool
  | Val.none => true
  | _ => false

/-- Fields of a tuple or list value (slicing support), `[]` otherwise. -/
def tupFields : Val → List Val
  | Val.tup fl => fl
  | Val.list fl => fl
  | _ => []

/-- The fields of a tuple value beyond the first four (`x[4:]`). -/
def tupTail (v : Val) : List Val := (tupFields v).drop 4

/-- First-match association-list lookup, i.e. Python `d.get(k)`. -/
def lookupA {α : Type} : List (String × α) → String → Option α
  | [], _ => Option.none
  | kv :: l, k => if kv.1 = k then some kv.2 else lookupA l k

/-- Python `d.get(k)` on a value dict. -/
def dlookup (d : Dict) (k : String) : Option Val := lookupA d k

/-- Replace the value stored under key `k`, keeping its position. -/
def replaceAll (d : Dict) (k : String) (v : Val) : Dict :=
  d.map (fun kv => if kv.1 = k then (k, v) else kv)

/-- Python `d[k] = v`: overwrite in place when present, append when new. -/
def dinsert (d : Dict) (k : String) (v : Val) : Dict :=
  if (dlookup d k).isSome then replaceAll d k v else d ++ [(k, v)]

/-- Python `dict(d, **upd)` and `d.update(upd)`: entries of `upd` win. -/
def dictUpdate (d : Dict) (upd : Dict) : Dict :=
  upd.foldl (fun acc kv => dinsert acc kv.1 kv.2) d

/-- Python `dict(**a, **b)`: raises `TypeError` on a duplicate keyword. -/
def dictKw (a b : Dict) : Except Err Dict :=
  if b.any (fun kv => (dlookup a kv.1).isSome) then Except.error Err.typeError
  else Except.ok (a ++ b)

/-- Effectful map over a list, stopping at the first raised exception,
like a Python loop or comprehension building a result. -/
def mapE {α β : Type} (f : α → Except Err β) : List α → Except Err (List β)
  | [] => Except.ok []
  | a :: rest =>
    match f a with
    | Except.error e => Except.error e
    | Except.ok b =>
      match mapE f rest with
      | Except.error e => Except.error e
      | Except.ok bs => Except.ok (b :: bs)

/-- The shared uniform random source `random`: a stream of draws in `[0,1)`. -/
structure RNG where
  draws : List ℚ
deriving DecidableEq

/-- Consume one draw (`random.random()`). -/
def RNG.next (g : RNG) : ℚ × RNG := (g.draws.headD 0, RNG.mk g.draws.tail)

/-- One transform instance: the fields set by `BasicTransform.__init__` and
`set_deterministic`, together with the overridable methods that the engine
calls (`get_params`, `targets_as_params`, `get_params_dependent_on_targets`,
`get_reverse_args`, `target_dependence`), the optional instance attributes
read by `update_params` via `hasattr`, and the two capability tables
(`targets`, `targets_reverse`).  `tid` is `id(self)` rendered as a key. -/
structure Transform where
  p : ℚ
  always_apply : Bool
  deterministic : Bool
  save_key : String
  params : Dict
  replay_mode : Bool
  applied_in_replay : Bool
  additional_targets : List (String × String)
  tid : String
  get_params : Dict
  targets_as_params : List String
  get_params_dependent_on_targets : Dict → Except Err Dict
  get_reverse_args : Dict → Dict
  target_dependence : String → List String
  interpolation : Option Val
  fill_value : Option Val
  mask_fill_value : Option Val
  targets : List (String × Handler)
  targets_reverse : List (String × Handler)

/-- Alias resolution step of `_get_target_function`: a key registered in
`_additional_targets` is replaced by its canonical kind. -/
def resolveKey (t : Transform) (key : String) : String :=
  match lookupA t.additional_targets key with
  | some k2 => k2
  | Option.none => key

/-- `BasicTransform._get_target_function`: capability lookup with the
identity function `lambda x, **p: x` as default. -/
def _get_target_function (t : Transform) (key : String) : Handler :=
  match lookupA t.targets (resolveKey t key) with
  | some f => f
  | Option.none => fun v _ => Except.ok v

/-- `BasicTransform._get_target_reverse_function`. -/
def _get_target_reverse_function (t : Transform) (key : String) : Handler :=
  match lookupA t.targets_reverse (resolveKey t key) with
  | some f => f
  | Option.none => fun v _ => Except.ok v

/-- `BasicTransform.update_params`: inject the `hasattr`-guarded instance
settings, then `rows`/`cols` from `kwargs["image"].shape`. -/
def update_params (t : Transform) (ps : Dict) (kwargs : Dict) : Except Err Dict :=
  let ps1 := match t.interpolation with
    | some v => dinsert ps "interpolation" v
    | Option.none => ps
  let ps2 := match t.fill_value with
    | some v => dinsert ps1 "fill_value" v
    | Option.none => ps1
  let ps3 := match t.mask_fill_value with
    | some v => dinsert ps2 "mask_fill_value" v
    | Option.none => ps2
  match dlookup kwargs "image" with
  | Option.none => Except.error (Err.keyError "image")
  | some (Val.img rows cols _) =>
      Except.ok (dictUpdate ps3 [("cols", Val.int (Int.ofNat cols)), ("rows", Val.int (Int.ofNat rows))])
  | some _ => Except.error Err.attributeError

/-- The per-target dependency values `{k: kwargs[k] for k in
self.target_dependence.get(key, [])}`, read from the call mapping. -/
def depsOf (t : Transform) (key : String) (outer : Dict) : Except Err Dict :=
  mapE (fun k =>
    match dlookup outer k with
    | some v => Except.ok (k, v)
    | Option.none => Except.error (Err.keyError k)) (t.target_dependence key)

/-- One iteration of the dispatch loop in `apply_with_params`: `None`
passes through, otherwise the resolved handler is invoked on the value and
`dict(params, **target_dependencies)`. -/
def dispatchEntry (t : Transform) (ps : Dict) (outer : Dict) (kv : String × Val) :
    Except Err (String × Val) :=
  if kv.2.isNone then Except.ok (kv.1, Val.none)
  else
    match depsOf t kv.1 outer with
    | Except.error e => Except.error e
    | Except.ok deps =>
      match _get_target_function t kv.1 kv.2 (dictUpdate ps deps) with
      | Except.error e => Except.error e
      | Except.ok out => Except.ok (kv.1, out)

/-- `BasicTransform.apply_with_params`: `None` params are an identity
pass-through; otherwise `update_params` runs and every entry of the call
mapping is dispatched. -/
def apply_with_params (t : Transform) (psOpt : Option Dict) (kwargs : Dict) :
    Except Err Dict :=
  match psOpt with
  | Option.none => Except.ok kwargs
  | some ps =>
    match update_params t ps kwargs with
    | Except.error e => Except.error e
    | Except.ok psU => mapE (dispatchEntry t psU kwargs) kwargs

/-- The gate expression of line 79:
`(random.random() < self.p) or self.always_apply or force_apply`,
with `r` the value of the already-consumed draw. -/
def gateFires (t : Transform) (force_apply : Bool) (r : ℚ) : Bool :=
  (decide (r < t.p) || t.always_apply) || force_apply

/-- Parameter generation of the fired branch: `get_params()` plus, when
`targets_as_params` is non-empty, the assertion that all those keys are
present and the merge of `get_params_dependent_on_targets`. -/
def genParams (t : Transform) (kwargs : Dict) : Except Err Dict :=
  if t.targets_as_params.isEmpty then Except.ok t.get_params
  else if t.targets_as_params.all (fun k => (dlookup kwargs k).isSome) then
    match t.get_params_dependent_on_targets
        (t.targets_as_params.map (fun k => (k, (dlookup kwargs k).getD Val.none))) with
    | Except.error e => Except.error e
    | Except.ok pd => Except.ok (dictUpdate t.get_params pd)
  else Except.error Err.assertionError

/-- The deterministic-recording step:
`kwargs[self.save_key][id(self)] = dict(**deepcopy(params), **{self.save_key:
self.get_reverse_args(**kwargs)})`.  The right-hand side is evaluated first
(`dict(**a, **b)` raising on a duplicate keyword), then the container is
looked up and mutated in place. -/
def recordStep (t : Transform) (ps : Dict) (kwargs : Dict) : Except Err Dict :=
  if t.deterministic then
    match dictKw ps [(t.save_key, Val.dict (t.get_reverse_args kwargs))] with
    | Except.error e => Except.error e
    | Except.ok rcd =>
      match dlookup kwargs t.save_key with
      | some (Val.dict c) =>
          Except.ok (dinsert kwargs t.save_key (Val.dict (dinsert c t.tid (Val.dict rcd))))
      | some _ => Except.error Err.typeError
      | Option.none => Except.error (Err.keyError t.save_key)
  else Except.ok kwargs

/-- The fired branch of `__call__`: generate params, record when
deterministic, then dispatch. -/
def callFired (t : Transform) (kwargs : Dict) : Except Err Dict :=
  match genParams t kwargs with
  | Except.error e => Except.error e
  | Except.ok ps =>
    match recordStep t ps kwargs with
    | Except.error e => Except.error e
    | Except.ok kwargs2 => apply_with_params t (some ps) kwargs2

/-- `BasicTransform.__call__` (named-argument path).  In replay mode no
draw is consumed; otherwise `random.random()` is evaluated first (the
leftmost operand of the `or` chain), so exactly one draw is consumed on
every non-replay call. -/
def callT (t : Transform) (force_apply : Bool) (kwargs : Dict) (g : RNG) :
    Except Err Dict × RNG :=
  if t.replay_mode then
    (if t.applied_in_replay then apply_with_params t (some t.params) kwargs
     else Except.ok kwargs, g)
  else
    if gateFires t force_apply g.next.1 then (callFired t kwargs, g.next.2)
    else (Except.ok kwargs, g.next.2)

/-- `BasicTransform.reverse`: read `params["params"][self.save_key]`, then
for each non-null entry resolve the reverse handler, read dependency
values from `params`, and invoke it on `dict(**reverse_params, **deps)`. -/
def reverseT (t : Transform) (data : Dict) (ps : Dict) : Except Err Dict :=
  match dlookup ps "params" with
  | Option.none => Except.error (Err.keyError "params")
  | some (Val.dict pd) =>
    match dlookup pd t.save_key with
    | Option.none => Except.error (Err.keyError t.save_key)
    | some rv =>
      mapE (fun kv =>
        if kv.2.isNone then Except.ok (kv.1, Val.none)
        else
          match mapE (fun k =>
              match dlookup ps k with
              | some v => Except.ok (k, v)
              | Option.none => Except.error (Err.keyError k)) (t.target_dependence kv.1) with
          | Except.error e => Except.error e
          | Except.ok deps =>
            match rv with
            | Val.dict rps =>
              match dictKw rps deps with
              | Except.error e => Except.error e
              | Except.ok merged =>
                match _get_target_reverse_function t kv.1 kv.2 merged with
                | Except.error e => Except.error e
                | Except.ok out => Except.ok (kv.1, out)
            | _ => Except.error Err.typeError) data
  | some _ => Except.error Err.typeError

/-- `cv2.INTER_NEAREST` (the integer constant 0). -/
def INTER_NEAREST : Val := Val.int 0

/-- `{k: cv2.INTER_NEAREST if k == "interpolation" else v
for k, v in params.items()}`. -/
def maskParams (ps : Dict) : Dict :=
  ps.map (fun kv => if kv.1 = "interpolation" then (kv.1, INTER_NEAREST) else kv)

/-- A handler that raises `NotImplementedError`, the body of the
un-overridden base methods (`apply`, `apply_to_bbox`, `reverse_image`, ...). -/
def notImplH (name : String) : Handler :=
  fun _ _ => Except.error (Err.notImplementedError name)

/-- `DualTransform.apply_to_mask` as derived from `apply` (the default,
when a subclass does not override it). -/
def default_apply_to_mask (ap : Handler) : Handler :=
  fun v ps => ap v (maskParams ps)

/-- The overridable single-target methods of a `DualTransform` instance.
`apply_to_mask` is a field because `NoOp` overrides it directly. -/
structure DualT where
  apply : Handler
  apply_to_bbox : Handler
  apply_to_keypoint : Handler
  apply_to_mask : Handler
  reverse_image : Handler
  reverse_bbox : Handler
  reverse_keypoint : Handler

/-- Build a `DualT` that keeps the inherited `apply_to_mask`. -/
def mkDualT (ap a2b a2k ri rb rk : Handler) : DualT :=
  { apply := ap
    apply_to_bbox := a2b
    apply_to_keypoint := a2k
    apply_to_mask := default_apply_to_mask ap
    reverse_image := ri
    reverse_bbox := rb
    reverse_keypoint := rk }

/-- The sequence fan-out shared by `apply_to_bboxes`, `reverse_bboxes`,
`apply_to_keypoints` and `reverse_keypoints`: per item, slice the first
four fields, run the per-item transform, and reattach `item[4:]`. -/
def fanStep (f : Handler) (ps : Dict) (b : Val) : Except Err Val :=
  match b with
  | Val.tup fl =>
    match f (Val.tup (fl.take 4)) ps with
    | Except.ok (Val.tup rf) => Except.ok (Val.tup (rf ++ fl.drop 4))
    | Except.ok _ => Except.error Err.typeError
    | Except.error e => Except.error e
  | Val.list fl =>
    match f (Val.tup (fl.take 4)) ps with
    | Except.ok (Val.tup rf) => Except.ok (Val.tup (rf ++ fl.drop 4))
    | Except.ok _ => Except.error Err.typeError
    | Except.error e => Except.error e
  | _ => Except.error Err.typeError

/-- The comprehension `[fanStep(b) for b in items]` over a sequence. -/
def tupleFanout (f : Handler) : Handler := fun v ps =>
  match v with
  | Val.list bs =>
    match mapE (fanStep f ps) bs with
    | Except.ok rs => Except.ok (Val.list rs)
    | Except.error e => Except.error e
  | _ => Except.error Err.typeError

/-- `DualTransform.apply_to_bboxes`. -/
def DualT.apply_to_bboxes (d : DualT) : Handler := tupleFanout d.apply_to_bbox

/-- `DualTransform.reverse_bboxes`. -/
def DualT.reverse_bboxes (d : DualT) : Handler := tupleFanout d.reverse_bbox

/-- `DualTransform.apply_to_keypoints`. -/
def DualT.apply_to_keypoints (d : DualT) : Handler := tupleFanout d.apply_to_keypoint

/-- `DualTransform.reverse_keypoints`. -/
def DualT.reverse_keypoints (d : DualT) : Handler := tupleFanout d.reverse_keypoint

/-- `DualTransform.reverse_mask`: `reverse_image` with nearest-neighbour
interpolation substituted. -/
def DualT.reverse_mask (d : DualT) : Handler :=
  fun v ps => d.reverse_image v (maskParams ps)

/-- `DualTransform.apply_to_masks`: `apply_to_mask` on each element. -/
def DualT.apply_to_masks (d : DualT) : Handler := fun v ps =>
  match v with
  | Val.list ms =>
    match mapE (fun m => d.apply_to_mask m ps) ms with
    | Except.ok rs => Except.ok (Val.list rs)
    | Except.error e => Except.error e
  | _ => Except.error Err.typeError

/-- `DualTransform.reverse_masks`, exactly as written at line 302 of the
source: it calls `self.apply_to_mask(mask, **params)` on each element. -/
def DualT.reverse_masks (d : DualT) : Handler := fun v ps =>
  match v with
  | Val.list ms =>
    match mapE (fun m => d.apply_to_mask m ps) ms with
    | Except.ok rs => Except.ok (Val.list rs)
    | Except.error e => Except.error e
  | _ => Except.error Err.typeError

/-- `DualTransform.targets`. -/
def DualT.targets (d : DualT) : List (String × Handler) :=
  [("image", d.apply), ("mask", d.apply_to_mask), ("masks", d.apply_to_masks),
   ("bboxes", d.apply_to_bboxes), ("keypoints", d.apply_to_keypoints)]

/-- `DualTransform.targets_reverse`. -/
def DualT.targets_reverse (d : DualT) : List (String × Handler) :=
  [("image", d.reverse_image), ("mask", d.reverse_mask), ("masks", d.reverse_masks),
   ("bboxes", d.reverse_bboxes), ("keypoints", d.reverse_keypoints)]

/-- A `DualTransform` subclass that overrides nothing: every single-target
method keeps its `NotImplementedError`-raising base body. -/
def defaultDual : DualT :=
  mkDualT (notImplH "apply") (notImplH "apply_to_bbox") (notImplH "apply_to_keypoint")
    (notImplH "reverse_image") (notImplH "reverse_bbox") (notImplH "reverse_keypoint")

/-- `NoOp`: overrides exactly `apply`, `apply_to_bbox`, `apply_to_keypoint`
and `apply_to_mask` with identities; the `reverse_*` methods are inherited
unimplemented. -/
def noopDual : DualT :=
  { apply := fun v _ => Except.ok v
    apply_to_bbox := fun v _ => Except.ok v
    apply_to_keypoint := fun v _ => Except.ok v
    apply_to_mask := fun v _ => Except.ok v
    reverse_image := notImplH "reverse_image"
    reverse_bbox := notImplH "reverse_bbox"
    reverse_keypoint := notImplH "reverse_keypoint" }

/-- The rational 0.5, written as an explicit numerator/denominator pair so
that it reduces inside the kernel. -/
def halfQ : ℚ := ⟨1, 2, by decide, by decide⟩

/-- A `DualTransform` instance with the constructor defaults of
`BasicTransform.__init__` (`p=0.5`, everything else off). -/
def dualBase (d : DualT) : Transform :=
  { p := halfQ
    always_apply := false
    deterministic := false
    save_key := "replay"
    params := []
    replay_mode := false
    applied_in_replay := false
    additional_targets := []
    tid := "140230000000000"
    get_params := []
    targets_as_params := []
    get_params_dependent_on_targets := fun _ =>
      Except.error (Err.notImplementedError "get_params_dependent_on_targets")
    get_reverse_args := fun _ => []
    target_dependence := fun _ => []
    interpolation := Option.none
    fill_value := Option.none
    mask_fill_value := Option.none
    targets := DualT.targets d
    targets_reverse := DualT.targets_reverse d }

/-- A `NoOp()` instance. -/
def noopT : Transform := dualBase noopDual

/-- A `NoOp(always_apply=True)` instance. -/
def alwaysT : Transform := { noopT with always_apply := true }

/-- The identity handler, standing for an overridden method that returns
its input unchanged. -/
def idH : Handler := fun v _ => Except.ok v

/-- A small concrete image value. -/
def img8 : Val := Val.img 2 3 [0]

/-- A well-formed recorded-parameter mapping for `reverse`:
`{"params": {"replay": {}}}`. -/
def rp5 : Dict := [("params", Val.dict [("replay", Val.dict [])])]

/-- A transform whose forward image operation adds one to an integer pixel
and whose reverse image operation subtracts one; nothing else overridden. -/
def cx6Dual : DualT :=
  mkDualT
    (fun v _ => match v with
      | Val.int n => Except.ok (Val.int (n + 1))
      | _ => Except.error Err.typeError)
    (notImplH "apply_to_bbox") (notImplH "apply_to_keypoint")
    (fun v _ => match v with
      | Val.int n => Except.ok (Val.int (n - 1))
      | _ => Except.error Err.typeError)
    (notImplH "reverse_bbox") (notImplH "reverse_keypoint")

/-- A transform whose image operations tag their output with the direction
they ran in and with the `interpolation` and `blur` parameters they
received, making the dispatched direction and parameters observable. -/
def d10 : DualT :=
  mkDualT
    (fun v ps => Except.ok (Val.tup [Val.str "fwd", v,
      (dlookup ps "interpolation").getD Val.none, (dlookup ps "blur").getD Val.none]))
    (notImplH "apply_to_bbox") (notImplH "apply_to_keypoint")
    (fun v ps => Except.ok (Val.tup [Val.str "rev", v,
      (dlookup ps "interpolation").getD Val.none, (dlookup ps "blur").getD Val.none]))
    (notImplH "reverse_bbox") (notImplH "reverse_keypoint")

/-- Parameters carrying a bilinear interpolation setting and one unrelated
setting. -/
def ps10 : Dict := [("interpolation", Val.int 2), ("blur", Val.int 7)]

/-- A per-item coordinate transform returning a constant 4-tuple. -/
def const4 : Handler :=
  fun _ _ => Except.ok (Val.tup [Val.int 0, Val.int 0, Val.int 0, Val.int 0])

/-- A transform whose four per-item coordinate methods are all `const4`. -/
def w7Dual : DualT :=
  mkDualT (notImplH "apply") const4 const4 (notImplH "reverse_image") const4 const4

/-- A 6-field bounding box `(10, 20, 30, 40, "label", 7)`. -/
def box6 : Val :=
  Val.tup [Val.int 10, Val.int 20, Val.int 30, Val.int 40, Val.str "label", Val.int 7]

/-- A `DualTransform` that overrides only `apply` (with the identity). -/
def t8 : Transform :=
  dualBase (mkDualT idH (notImplH "apply_to_bbox") (notImplH "apply_to_keypoint")
    (notImplH "reverse_image") (notImplH "reverse_bbox") (notImplH "reverse_keypoint"))

/-- A deterministic (recording) `NoOp`-like instance with one generated
parameter. -/
def wT4 : Transform :=
  { noopT with
    deterministic := true
    always_apply := true
    get_params := [("shift", Val.int 3)] }

/-- A call bundle holding an image and an empty replay container. -/
def wKW4 : Dict := [("image", Val.img 2 3 [0]), ("replay", Val.dict [])]

/-- The list handler property claimed for the bbox/keypoint fan-outs:
the sequence maps to a sequence of the same length in which the fields of
each element beyond the first four are the corresponding input element's
trailing fields. -/
def preservesTrailing (h : Handler) (ps : Dict) (xs : List Val) : Prop :=
  ∃ rs, h (Val.list xs) ps = Except.ok (Val.list rs) ∧ rs.length = xs.length ∧
    ∀ i, (hi : i < rs.length) → (hj : i < xs.length) →
      tupTail (rs.get ⟨i, hi⟩) = tupTail (xs.get ⟨i, hj⟩)

/-- Conclusion of claim C1: with replay off, the call branches on the gate
expression; the gate is true exactly when the draw is below `p` or an
override flag is set; `p = 1` always fires; `p = 0` with no override
returns the input bundle unchanged. -/
def C1Concl (t : Transform) (force : Bool) (kwargs : Dict) (g : RNG) : Prop :=
  (callT t force kwargs g =
    (if gateFires t force g.next.1 then callFired t kwargs else Except.ok kwargs,
     g.next.2))
  ∧ (gateFires t force g.next.1 = true ↔
      (g.next.1 < t.p ∨ t.always_apply = true ∨ force = true))
  ∧ (t.p = 1 → callT t force kwargs g = (callFired t kwargs, g.next.2))
  ∧ (t.p = 0 → t.always_apply = false → force = false →
      callT t force kwargs g = (Except.ok kwargs, g.next.2))

/-- Conclusion of claim C2: in replay mode the random source is untouched,
the recorded `params` are dispatched when `applied_in_replay`, the input
passes through otherwise, and the result does not depend on `get_params`
or on the random stream. -/
def C2Concl (t : Transform) (force : Bool) (kwargs : Dict) (g : RNG) : Prop :=
  (callT t force kwargs g =
    (if t.applied_in_replay then apply_with_params t (some t.params) kwargs
     else Except.ok kwargs, g))
  ∧ (∀ q g2, callT { t with get_params := q } force kwargs g2 =
      (if t.applied_in_replay then apply_with_params t (some t.params) kwargs
       else Except.ok kwargs, g2))

/-- Conclusion of the amended claim C3: one draw is consumed on every
non-replay call, whether or not an override flag short-circuits the gate,
and no draw is consumed in replay mode. -/
def C3Concl (t : Transform) (force : Bool) (kwargs : Dict) (g : RNG) : Prop :=
  (t.replay_mode = false → (callT t force kwargs g).2 = RNG.mk g.draws.tail)
  ∧ (t.replay_mode = true → (callT t force kwargs g).2 = g)

/-- The snapshot recorded for one deterministic application: a value copy
of the generated params plus `save_key → get_reverse_args(**kwargs)`. -/
def C4Record (t : Transform) (ps : Dict) (kwargs : Dict) : Dict :=
  ps ++ [(t.save_key, Val.dict (t.get_reverse_args kwargs))]

/-- The replay container after recording: the old container with this
instance's identity mapped to the snapshot. -/
def C4Container (t : Transform) (ps c : Dict) (kwargs : Dict) : Val :=
  Val.dict (dinsert c t.tid (Val.dict (C4Record t ps kwargs)))

/-- Conclusion of claim C4: a fired deterministic call dispatches the
generated params over the bundle whose replay container now holds the
snapshot; the snapshot equals the generated params (taken before
`update_params` injects anything) plus the reverse-args entry; dropping
the deterministic flag gives the plain dispatch on the untouched bundle;
and the recorded call's output is the normal output with only the replay
container entry replaced. -/
def C4Concl (t : Transform) (force : Bool) (ps c : Dict) (kwargs : Dict) (g : RNG) : Prop :=
  (callT t force kwargs g =
    (apply_with_params t (some ps)
       (dinsert kwargs t.save_key (C4Container t ps c kwargs)), g.next.2))
  ∧ (∀ k, k ≠ t.save_key → dlookup (C4Record t ps kwargs) k = dlookup ps k)
  ∧ (callT { t with deterministic := false } force kwargs g =
      (apply_with_params t (some ps) kwargs, g.next.2))
  ∧ (apply_with_params t (some ps)
       (dinsert kwargs t.save_key (C4Container t ps c kwargs)) =
     Except.map (fun out => replaceAll out t.save_key (C4Container t ps c kwargs))
       (apply_with_params t (some ps) kwargs))

/-- Conclusion of claim C8: an unknown data key passes through the fired
dispatch unchanged, while a declared-but-not-overridden kind raises
`NotImplementedError`; the two outcomes are distinct. -/
def C8Concl (v : Val) : Prop :=
  (apply_with_params t8 (some []) [("image", img8), ("custom_key", v)]
     = Except.ok [("image", img8), ("custom_key", v)])
  ∧ (apply_with_params (dualBase defaultDual) (some []) [("image", img8)]
     = Except.error (Err.notImplementedError "apply"))
  ∧ (apply_with_params t8 (some [])
       [("image", img8),
        ("bboxes", Val.list [Val.tup [Val.int 1, Val.int 2, Val.int 3, Val.int 4]])]
     = Except.error (Err.notImplementedError "apply_to_bbox"))

/-- Conclusion of claim C9: without an `"image"` entry, `update_params`
raises `KeyError("image")`, so does any dispatch with non-`None` params,
and so does a fired non-deterministic call. -/
def C9Concl (t : Transform) (ps kwargs : Dict) (force : Bool) (g : RNG) : Prop :=
  update_params t ps kwargs = Except.error (Err.keyError "image")
  ∧ apply_with_params t (some ps) kwargs = Except.error (Err.keyError "image")
  ∧ (t.replay_mode = false → t.deterministic = false → t.targets_as_params = [] →
      gateFires t force g.next.1 = true →
      callT t force kwargs g = (Except.error (Err.keyError "image"), g.next.2))

/-! ## Helper lemmas -/

theorem replay_mode_set_get_params (t : Transform) (q : Dict) :
    ({ t with get_params := q } : Transform).replay_mode = t.replay_mode := rfl

theorem applied_in_replay_set_get_params (t : Transform) (q : Dict) :
    ({ t with get_params := q } : Transform).applied_in_replay = t.applied_in_replay := rfl

theorem awp_set_get_params (t : Transform) (q : Dict) (x : Option Dict) (y : Dict) :
    apply_with_params { t with get_params := q } x y = apply_with_params t x y := rfl

theorem params_set_get_params (t : Transform) (q : Dict) :
    ({ t with get_params := q } : Transform).params = t.params := rfl

theorem replay_mode_set_det (t : Transform) (b : Bool) :
    ({ t with deterministic := b } : Transform).replay_mode = t.replay_mode := rfl

theorem deterministic_set_det (t : Transform) (b : Bool) :
    ({ t with deterministic := b } : Transform).deterministic = b := rfl

theorem gateFires_set_det (t : Transform) (b : Bool) (f : Bool) (r : ℚ) :
    gateFires { t with deterministic := b } f r = gateFires t f r := rfl

theorem genParams_set_det (t : Transform) (b : Bool) (y : Dict) :
    genParams { t with deterministic := b } y = genParams t y := rfl

theorem awp_set_det (t : Transform) (b : Bool) (x : Option Dict) (y : Dict) :
    apply_with_params { t with deterministic := b } x y = apply_with_params t x y := rfl

theorem mapE_congr {α β : Type} (f g : α → Except Err β) (l : List α)
    (h : ∀ a ∈ l, f a = g a) : mapE f l = mapE g l := by
  induction l with
  | nil => rfl
  | cons a rest ih =>
    have ha := h a (List.mem_cons_self a rest)
    have hrest := ih (fun b hb => h b (List.mem_cons_of_mem a hb))
    simp [mapE, ha, hrest]

theorem dlookup_replaceAll_ne (d : Dict) (s : String) (v : Val) (k : String)
    (h : k ≠ s) : dlookup (replaceAll d s v) k = dlookup d k := by
  induction d with
  | nil => rfl
  | cons kv rest ih =>
    by_cases hk : kv.1 = s
    · simp [replaceAll, dlookup, lookupA, hk, Ne.symm h] at ih ⊢
      exact ih
    · simp only [replaceAll, List.map_cons, if_neg hk] at ih ⊢
      simp [dlookup, lookupA] at ih ⊢
      by_cases hq : kv.1 = k
      · simp [hq]
      · simp [hq]
        exact ih

theorem dlookup_append_single (d : Dict) (s : String) (v : Val) (k : String)
    (h : k ≠ s) : dlookup (d ++ [(s, v)]) k = dlookup d k := by
  induction d with
  | nil => simp [dlookup, lookupA, Ne.symm h]
  | cons kv rest ih =>
    by_cases hq : kv.1 = k
    · simp [dlookup, lookupA, hq]
    · simp only [List.cons_append]
      simp [dlookup, lookupA, hq] at ih ⊢
      exact ih

/-! ## Claims C1 - C3 -/

/-- Claim C1: with replay off, the transform fires exactly when
`force_apply` or `always_apply` is set or the consumed uniform draw is
strictly below `p`; with `p = 1` it always fires; with `p = 0` and no
overrides the call returns the input bundle unchanged. -/
theorem C1_gate (t : Transform) (force : Bool) (kwargs : Dict) (g : RNG)
    (hrm : t.replay_mode = false) (h0 : 0 ≤ g.next.1) (h1 : g.next.1 < 1) :
    C1Concl t force kwargs g := by
  refine ⟨?_, ?_, ?_, ?_⟩
  · unfold callT
    rw [hrm]
    simp only [Bool.false_eq_true, if_false]
    split <;> rfl
  · simp [gateFires, Bool.or_eq_true, decide_eq_true_eq, or_assoc]
  · intro hp
    have hd : decide (g.next.1 < t.p) = true := by
      rw [hp]; exact decide_eq_true h1
    simp [callT, hrm, gateFires, hd]
  · intro hp ha hf
    have hd : decide (g.next.1 < t.p) = false := by
      rw [hp]; exact decide_eq_false (not_lt.mpr h0)
    simp [callT, hrm, gateFires, hd, ha, hf]

/-- Witness for C1 at a `NoOp()` instance and the draw 0. -/
theorem C1_gate_witness : C1Concl noopT false [] (RNG.mk [0]) :=
  C1_gate noopT false [] (RNG.mk [0]) rfl (by decide) (by decide)

/-- Claim C2: a replay-mode call consumes no draw and either dispatches
the recorded `params` (when `applied_in_replay`) or returns the input
mapping unchanged; the result is independent of `get_params` and of the
random stream. -/
theorem C2_replay (t : Transform) (force : Bool) (kwargs : Dict) (g : RNG)
    (hrm : t.replay_mode = true) : C2Concl t force kwargs g := by
  constructor
  · simp [callT, hrm]
  · intro q g2
    have h1 : callT { t with get_params := q } force kwargs g2
        = (if t.applied_in_replay then
             apply_with_params { t with get_params := q } (some t.params) kwargs
           else Except.ok kwargs, g2) := by
      unfold callT
      rw [replay_mode_set_get_params, hrm]
      simp only [applied_in_replay_set_get_params, params_set_get_params, if_true]
    rw [h1, awp_set_get_params]

/-- Witness for C2 at a replaying instance with recorded parameters. -/
theorem C2_replay_witness :
    C2Concl { noopT with replay_mode := true, applied_in_replay := true }
      false [("image", img8)] (RNG.mk [0]) :=
  C2_replay { noopT with replay_mode := true, applied_in_replay := true }
    false [("image", img8)] (RNG.mk [0]) rfl

/-- Counterexample to claim C3 as stated: with `always_apply = true` the
gate still consumes one draw, because line 79 evaluates `random.random()`
first as the leftmost operand of the `or` chain, so the random state
after the gate differs from the state before. -/
theorem C3_counterexample :
    (callT alwaysT false [("image", Val.img 1 1 [0])] (RNG.mk [halfQ])).2 ≠ RNG.mk [halfQ] := by
  have h : (callT alwaysT false [("image", Val.img 1 1 [0])] (RNG.mk [halfQ])).2 = RNG.mk [] := rfl
  rw [h]
  simp [RNG.mk.injEq]

/-- Claim C3 (amended): every non-replay call consumes exactly one draw
from the uniform source, whether or not an override flag applies; a
replay-mode call consumes none. -/
theorem C3_draw_consumption (t : Transform) (force : Bool) (kwargs : Dict) (g : RNG) :
    C3Concl t force kwargs g := by
  constructor
  · intro h
    unfold callT
    rw [h]
    simp only [Bool.false_eq_true, if_false]
    by_cases hg : gateFires t force g.next.1 = true
    · rw [if_pos hg]
      rfl
    · rw [if_neg hg]
      rfl
  · intro h
    simp [callT, h]

/-- Witness for the amended C3: a non-replay call advances the stream by
one draw and a replay-mode call leaves it untouched. -/
theorem C3_draw_consumption_witness :
    (callT noopT false [] (RNG.mk [halfQ])).2 = RNG.mk []
    ∧ (callT { noopT with replay_mode := true } false [] (RNG.mk [halfQ])).2 = RNG.mk [halfQ] :=
  ⟨(C3_draw_consumption noopT false [] (RNG.mk [halfQ])).1 rfl,
   (C3_draw_consumption { noopT with replay_mode := true } false [] (RNG.mk [halfQ])).2 rfl⟩

/-! ## Claims C5, C6, C10 (reverse-path bugs) -/

/-- Claim C5 evidence: `NoOp`'s reverse raises `NotImplementedError` for
the image, mask, bboxes and keypoints kinds, because `NoOp` overrides only
the forward methods and inherits the unimplemented `reverse_*` bodies;
only the masks kind returns its input, and it does so through the forward
`apply_to_mask`. -/
theorem C5_noop_reverse_raises :
    reverseT noopT [("image", Val.img 1 1 [7])] rp5
      = Except.error (Err.notImplementedError "reverse_image")
    ∧ reverseT noopT [("mask", Val.img 1 1 [7])] rp5
      = Except.error (Err.notImplementedError "reverse_image")
    ∧ reverseT noopT
        [("bboxes", Val.list [Val.tup [Val.int 1, Val.int 2, Val.int 3, Val.int 4]])] rp5
      = Except.error (Err.notImplementedError "reverse_bbox")
    ∧ reverseT noopT
        [("keypoints", Val.list [Val.tup [Val.int 1, Val.int 2, Val.int 3, Val.int 4]])] rp5
      = Except.error (Err.notImplementedError "reverse_keypoint")
    ∧ reverseT noopT [("masks", Val.list [Val.img 1 1 [7]])] rp5
      = Except.ok [("masks", Val.list [Val.img 1 1 [7]])] :=
  ⟨rfl, rfl, rfl, rfl, rfl⟩

/-- Claim C6 evidence: `reverse_masks` maps the forward `apply_to_mask`
over the list (line 302), not the per-mask reverse handler: with a forward
image operation of +1 and a reverse image operation of -1, reversing the
masks `[5]` yields `[6]`, while the per-mask reverse handler `reverse_mask`
yields `4`; the reverse capability table routes "masks" to this handler. -/
theorem C6_reverse_masks_is_forward :
    DualT.reverse_masks cx6Dual (Val.list [Val.int 5]) [] = Except.ok (Val.list [Val.int 6])
    ∧ DualT.reverse_mask cx6Dual (Val.int 5) [] = Except.ok (Val.int 4)
    ∧ lookupA (DualT.targets_reverse cx6Dual) "masks" = some (DualT.reverse_masks cx6Dual) :=
  ⟨rfl, rfl, rfl⟩

/-- Claim C10 evidence: the mask paths substitute nearest-neighbour
interpolation and pass every other parameter through unchanged, and the
forward mask/masks paths and the reverse single-mask path invoke the image
operation of the matching direction; but the reverse masks path invokes
the forward image operation (tagged "fwd"), not `reverse_image`. -/
theorem C10_mask_nearest :
    d10.apply_to_mask (Val.int 5) ps10
      = Except.ok (Val.tup [Val.str "fwd", Val.int 5, Val.int 0, Val.int 7])
    ∧ DualT.reverse_mask d10 (Val.int 5) ps10
      = Except.ok (Val.tup [Val.str "rev", Val.int 5, Val.int 0, Val.int 7])
    ∧ DualT.apply_to_masks d10 (Val.list [Val.int 5]) ps10
      = Except.ok (Val.list [Val.tup [Val.str "fwd", Val.int 5, Val.int 0, Val.int 7]])
    ∧ DualT.reverse_masks d10 (Val.list [Val.int 5]) ps10
      = Except.ok (Val.list [Val.tup [Val.str "fwd", Val.int 5, Val.int 0, Val.int 7]])
    ∧ lookupA (DualT.targets_reverse d10) "masks" = some (DualT.reverse_masks d10) :=
  ⟨rfl, rfl, rfl, rfl, rfl⟩

/-! ## Claims C8, C9 -/

/-- Claim C8: in a fired dispatch an unknown data key is passed through by
the identity default, while a declared kind whose method is not overridden
(`apply` on the base, `apply_to_bbox` on a `DualTransform`) raises
`NotImplementedError`; the outcomes are distinguishable. -/
theorem C8_dispatch (v : Val) (hv : v.isNone = false) : C8Concl v := by
  refine ⟨?_, rfl, rfl⟩
  cases v with
  | none => simp [Val.isNone] at hv
  | int n => rfl
  | str s => rfl
  | img a b c => rfl
  | list l => rfl
  | tup l => rfl
  | dict d => rfl

/-- Witness for C8 at the value 3. -/
theorem C8_dispatch_witness : C8Concl (Val.int 3) := C8_dispatch (Val.int 3) rfl

theorem awp_missing_image (t : Transform) (ps kwargs : Dict)
    (himg : dlookup kwargs "image" = Option.none) :
    update_params t ps kwargs = Except.error (Err.keyError "image")
    ∧ apply_with_params t (some ps) kwargs = Except.error (Err.keyError "image") := by
  have h1 : update_params t ps kwargs = Except.error (Err.keyError "image") := by
    unfold update_params
    rw [himg]
  refine ⟨h1, ?_⟩
  simp [apply_with_params, h1]

/-- Claim C9: a fired (or replayed-as-applied) application requires an
`"image"` entry: `update_params` reads `kwargs["image"].shape`, so without
it the call raises `KeyError("image")` even when only masks, bboxes or
keypoints are supplied. -/
theorem C9_image_required (t : Transform) (ps kwargs : Dict) (force : Bool) (g : RNG)
    (himg : dlookup kwargs "image" = Option.none) : C9Concl t ps kwargs force g := by
  obtain ⟨h1, h2⟩ := awp_missing_image t ps kwargs himg
  refine ⟨h1, h2, ?_⟩
  intro hrm hdet htap hfire
  have hgen : genParams t kwargs = Except.ok t.get_params := by
    unfold genParams
    rw [htap]
    rfl
  have hrec : recordStep t t.get_params kwargs = Except.ok kwargs := by
    unfold recordStep
    rw [hdet]
    rfl
  have hcf : callFired t kwargs = Except.error (Err.keyError "image") := by
    simp [callFired, hgen, hrec, (awp_missing_image t t.get_params kwargs himg).2]
  unfold callT
  rw [hrm]
  simp only [Bool.false_eq_true, if_false, if_pos hfire, hcf]

/-- Witness for C9: a `NoOp(always_apply=True)` call carrying only masks. -/
theorem C9_image_required_witness :
    C9Concl alwaysT [] [("masks", Val.list [Val.img 1 1 [0]])] false (RNG.mk [0]) :=
  C9_image_required alwaysT [] [("masks", Val.list [Val.img 1 1 [0]])] false (RNG.mk [0]) rfl

/-! ## Claim C7 -/

theorem tupleFanout_list (f : Handler) (ps : Dict) (bs : List Val) :
    tupleFanout f (Val.list bs) ps =
      match mapE (fanStep f ps) bs with
      | Except.ok rs => Except.ok (Val.list rs)
      | Except.error e => Except.error e := rfl

theorem fanSpec (f : Handler) (ps : Dict) :
    ∀ bs : List Val, (∀ b ∈ bs, ∃ fl, b = Val.tup fl) →
      (∀ v, ∃ o, f v ps = Except.ok (Val.tup o) ∧ o.length = 4) →
      preservesTrailing (tupleFanout f) ps bs := by
  intro bs
  induction bs with
  | nil =>
    intro hb hf
    exact ⟨[], rfl, rfl, fun i hi hj => absurd hi (by simp)⟩
  | cons b rest ih =>
    intro hb hf
    obtain ⟨fl, hbfl⟩ := hb b (List.mem_cons_self b rest)
    obtain ⟨o, hfo, ho4⟩ := hf (Val.tup (fl.take 4))
    obtain ⟨rs, hrs, hlen, htail⟩ := ih (fun x hx => hb x (List.mem_cons_of_mem b hx)) hf
    have hstep : fanStep f ps b = Except.ok (Val.tup (o ++ fl.drop 4)) := by
      rw [hbfl]
      simp [fanStep, hfo]
    have hmap : mapE (fanStep f ps) rest = Except.ok rs := by
      rw [tupleFanout_list] at hrs
      cases hm : mapE (fanStep f ps) rest with
      | error e => rw [hm] at hrs; simp at hrs
      | ok rs2 =>
        rw [hm] at hrs
        simp only [Except.ok.injEq, Val.list.injEq] at hrs
        rw [hrs]
    refine ⟨Val.tup (o ++ fl.drop 4) :: rs, ?_, by simp [hlen], ?_⟩
    · rw [tupleFanout_list]
      simp [mapE, hstep, hmap]
    · intro i hi hj
      cases i with
      | zero =>
        rw [hbfl]
        show tupTail (Val.tup (o ++ fl.drop 4)) = tupTail (Val.tup fl)
        simp only [tupTail, tupFields]
        rw [← ho4, List.drop_left]
      | succ n =>
        exact htail n (by simpa using hi) (by simpa using hj)

/-- Claim C7: the forward and reverse bbox and keypoint sequence handlers
return a sequence of the same length, in input order, in which every
output element's fields beyond the first four are exactly the
corresponding input element's trailing fields, whatever the per-item
coordinate transform does to the first four fields. -/
theorem C7_trailing_preserved (d : DualT) (ps : Dict) (bs ks : List Val)
    (hbs : ∀ b ∈ bs, ∃ fl, b = Val.tup fl ∧ 4 ≤ fl.length)
    (hks : ∀ b ∈ ks, ∃ fl, b = Val.tup fl ∧ 4 ≤ fl.length)
    (hab : ∀ v, ∃ o, d.apply_to_bbox v ps = Except.ok (Val.tup o) ∧ o.length = 4)
    (hrb : ∀ v, ∃ o, d.reverse_bbox v ps = Except.ok (Val.tup o) ∧ o.length = 4)
    (hak : ∀ v, ∃ o, d.apply_to_keypoint v ps = Except.ok (Val.tup o) ∧ o.length = 4)
    (hrk : ∀ v, ∃ o, d.reverse_keypoint v ps = Except.ok (Val.tup o) ∧ o.length = 4) :
    preservesTrailing (DualT.apply_to_bboxes d) ps bs
    ∧ preservesTrailing (DualT.reverse_bboxes d) ps bs
    ∧ preservesTrailing (DualT.apply_to_keypoints d) ps ks
    ∧ preservesTrailing (DualT.reverse_keypoints d) ps ks :=
  ⟨fanSpec d.apply_to_bbox ps bs (fun b hb => (hbs b hb).imp (fun _ h => h.1)) hab,
   fanSpec d.reverse_bbox ps bs (fun b hb => (hbs b hb).imp (fun _ h => h.1)) hrb,
   fanSpec d.apply_to_keypoint ps ks (fun b hb => (hks b hb).imp (fun _ h => h.1)) hak,
   fanSpec d.reverse_keypoint ps ks (fun b hb => (hks b hb).imp (fun _ h => h.1)) hrk⟩

/-- Witness for C7 at the 6-field box `(10, 20, 30, 40, "label", 7)` and a
constant coordinate transform. -/
theorem C7_trailing_preserved_witness :
    preservesTrailing (DualT.apply_to_bboxes w7Dual) [] [box6]
    ∧ preservesTrailing (DualT.reverse_bboxes w7Dual) [] [box6]
    ∧ preservesTrailing (DualT.apply_to_keypoints w7Dual) [] [box6]
    ∧ preservesTrailing (DualT.reverse_keypoints w7Dual) [] [box6] :=
  C7_trailing_preserved w7Dual [] [box6] [box6]
    (fun b hb => by
      rw [List.mem_singleton] at hb
      exact ⟨_, hb, by decide⟩)
    (fun b hb => by
      rw [List.mem_singleton] at hb
      exact ⟨_, hb, by decide⟩)
    (fun _ => ⟨[Val.int 0, Val.int 0, Val.int 0, Val.int 0], rfl, rfl⟩)
    (fun _ => ⟨[Val.int 0, Val.int 0, Val.int 0, Val.int 0], rfl, rfl⟩)
    (fun _ => ⟨[Val.int 0, Val.int 0, Val.int 0, Val.int 0], rfl, rfl⟩)
    (fun _ => ⟨[Val.int 0, Val.int 0, Val.int 0, Val.int 0], rfl, rfl⟩)

/-! ## Claim C4 -/

theorem dispatchEntry_key (t : Transform) (ps outer : Dict) (kv b : String × Val)
    (h : dispatchEntry t ps outer kv = Except.ok b) : b.1 = kv.1 := by
  unfold dispatchEntry at h
  split at h
  · simp only [Except.ok.injEq] at h
    subst h
    rfl
  · split at h
    · simp at h
    · split at h
      · simp at h
      · simp only [Except.ok.injEq] at h
        subst h
        rfl

theorem depsOf_replace (t : Transform) (key : String) (outer : Dict) (s : String) (v : Val)
    (hdep : ¬ s ∈ t.target_dependence key) :
    depsOf t key (replaceAll outer s v) = depsOf t key outer := by
  unfold depsOf
  apply mapE_congr
  intro k hk
  have hks : k ≠ s := fun he => hdep (he ▸ hk)
  rw [dlookup_replaceAll_ne outer s v k hks]

theorem update_params_replace (t : Transform) (ps kwargs : Dict) (s : String) (v : Val)
    (h : s ≠ "image") :
    update_params t ps (replaceAll kwargs s v) = update_params t ps kwargs := by
  unfold update_params
  rw [dlookup_replaceAll_ne kwargs s v "image" (Ne.symm h)]

theorem dispatchEntry_outer_replace (t : Transform) (ps outer : Dict) (s : String) (v : Val)
    (kv : String × Val) (hdep : ¬ s ∈ t.target_dependence kv.1) :
    dispatchEntry t ps (replaceAll outer s v) kv = dispatchEntry t ps outer kv := by
  unfold dispatchEntry
  rw [depsOf_replace t kv.1 outer s v hdep]

theorem replaceAll_cons (kv : String × Val) (d : Dict) (s : String) (v : Val) :
    replaceAll (kv :: d) s v = (if kv.1 = s then (s, v) else kv) :: replaceAll d s v := rfl

theorem dispatch_replace (t : Transform) (ps outer : Dict) (s : String) (vNew : Val)
    (hid : lookupA t.targets (resolveKey t s) = Option.none)
    (hdepS : t.target_dependence s = [])
    (hvn : vNew.isNone = false) :
    ∀ l : Dict, mapE (dispatchEntry t ps outer) (replaceAll l s vNew)
      = Except.map (fun out => replaceAll out s vNew) (mapE (dispatchEntry t ps outer) l) := by
  have hdeps : depsOf t s outer = Except.ok [] := by
    unfold depsOf
    rw [hdepS]
    rfl
  have hnew : dispatchEntry t ps outer (s, vNew) = Except.ok (s, vNew) := by
    simp [dispatchEntry, hvn, hdeps, _get_target_function, hid]
  intro l
  induction l with
  | nil => rfl
  | cons kv rest ih =>
    by_cases hk : kv.1 = s
    · have hold : ∃ w, dispatchEntry t ps outer kv = Except.ok (kv.1, w) := by
        by_cases hn : kv.2.isNone = true
        · exact ⟨Val.none, by simp [dispatchEntry, hn]⟩
        · refine ⟨kv.2, ?_⟩
          simp [dispatchEntry, hn, hk, hdeps, _get_target_function, hid]
      obtain ⟨w, hw⟩ := hold
      have hreps : replaceAll (kv :: rest) s vNew = (s, vNew) :: replaceAll rest s vNew := by
        rw [replaceAll_cons, if_pos hk]
      rw [hreps]
      cases hrest : mapE (dispatchEntry t ps outer) rest with
      | error e =>
        have ihe : mapE (dispatchEntry t ps outer) (replaceAll rest s vNew)
            = Except.error e := by
          rw [ih, hrest]
          rfl
        simp [mapE, hnew, hw, hrest, ihe, Except.map]
      | ok bs =>
        have iho : mapE (dispatchEntry t ps outer) (replaceAll rest s vNew)
            = Except.ok (replaceAll bs s vNew) := by
          rw [ih, hrest]
          rfl
        simp [mapE, hnew, hw, hrest, iho, Except.map, replaceAll_cons, hk]
    · have hreps : replaceAll (kv :: rest) s vNew = kv :: replaceAll rest s vNew := by
        rw [replaceAll_cons, if_neg hk]
      rw [hreps]
      cases hcur : dispatchEntry t ps outer kv with
      | error e => simp [mapE, hcur, Except.map]
      | ok b =>
        have hb1 : b.1 = kv.1 := dispatchEntry_key t ps outer kv b hcur
        cases hrest : mapE (dispatchEntry t ps outer) rest with
        | error e =>
          have ihe : mapE (dispatchEntry t ps outer) (replaceAll rest s vNew)
              = Except.error e := by
            rw [ih, hrest]
            rfl
          simp [mapE, hcur, hrest, ihe, Except.map]
        | ok bs =>
          have iho : mapE (dispatchEntry t ps outer) (replaceAll rest s vNew)
              = Except.ok (replaceAll bs s vNew) := by
            rw [ih, hrest]
            rfl
          simp [mapE, hcur, hrest, iho, Except.map, replaceAll_cons, hb1, hk]

theorem awp_replace (t : Transform) (ps kwargs : Dict) (s : String) (vNew : Val)
    (him : s ≠ "image")
    (hid : lookupA t.targets (resolveKey t s) = Option.none)
    (hdepAll : ∀ k, ¬ s ∈ t.target_dependence k)
    (hdepS : t.target_dependence s = [])
    (hvn : vNew.isNone = false) :
    apply_with_params t (some ps) (replaceAll kwargs s vNew)
      = Except.map (fun out => replaceAll out s vNew) (apply_with_params t (some ps) kwargs) := by
  cases hup : update_params t ps kwargs with
  | error e =>
    have e1 : apply_with_params t (some ps) kwargs = Except.error e := by
      show (match update_params t ps kwargs with
            | Except.error e2 => Except.error e2
            | Except.ok psU => mapE (dispatchEntry t psU kwargs) kwargs) = _
      rw [hup]
    have e2 : apply_with_params t (some ps) (replaceAll kwargs s vNew) = Except.error e := by
      show (match update_params t ps (replaceAll kwargs s vNew) with
            | Except.error e2 => Except.error e2
            | Except.ok psU =>
                mapE (dispatchEntry t psU (replaceAll kwargs s vNew)) (replaceAll kwargs s vNew)) = _
      rw [update_params_replace t ps kwargs s vNew him, hup]
    rw [e1, e2]
    rfl
  | ok psU =>
    have e1 : apply_with_params t (some ps) kwargs
        = mapE (dispatchEntry t psU kwargs) kwargs := by
      show (match update_params t ps kwargs with
            | Except.error e2 => Except.error e2
            | Except.ok ps2 => mapE (dispatchEntry t ps2 kwargs) kwargs) = _
      rw [hup]
    have e2 : apply_with_params t (some ps) (replaceAll kwargs s vNew)
        = mapE (dispatchEntry t psU (replaceAll kwargs s vNew)) (replaceAll kwargs s vNew) := by
      show (match update_params t ps (replaceAll kwargs s vNew) with
            | Except.error e2 => Except.error e2
            | Except.ok ps2 =>
                mapE (dispatchEntry t ps2 (replaceAll kwargs s vNew)) (replaceAll kwargs s vNew)) = _
      rw [update_params_replace t ps kwargs s vNew him, hup]
    rw [e1, e2]
    rw [mapE_congr (dispatchEntry t psU (replaceAll kwargs s vNew)) (dispatchEntry t psU kwargs)
      (replaceAll kwargs s vNew)
      (fun kv _ => dispatchEntry_outer_replace t psU kwargs s vNew kv (hdepAll kv.1))]
    exact dispatch_replace t psU kwargs s vNew hid hdepS hvn kwargs

/-- Claim C4: a fired deterministic call snapshots the generated params
(by value, before `update_params` injects `rows`/`cols`) together with the
`save_key -> get_reverse_args(**kwargs)` entry into the replay container
under this instance's identity, and apart from that container entry the
output equals the Normal-state output for the same generated params. -/
theorem C4_deterministic_recording (t : Transform) (force : Bool) (ps c kwargs : Dict) (g : RNG)
    (hrm : t.replay_mode = false)
    (hfire : gateFires t force g.next.1 = true)
    (hdet : t.deterministic = true)
    (hgen : genParams t kwargs = Except.ok ps)
    (hcont : dlookup kwargs t.save_key = some (Val.dict c))
    (hnosk : dlookup ps t.save_key = Option.none)
    (him : t.save_key ≠ "image")
    (halias : lookupA t.additional_targets t.save_key = Option.none)
    (htgt : lookupA t.targets t.save_key = Option.none)
    (hdepAll : ∀ k, ¬ t.save_key ∈ t.target_dependence k)
    (hdepS : t.target_dependence t.save_key = []) :
    C4Concl t force ps c kwargs g := by
  have hrk : resolveKey t t.save_key = t.save_key := by
    unfold resolveKey
    rw [halias]
  have hid : lookupA t.targets (resolveKey t t.save_key) = Option.none := by
    rw [hrk]
    exact htgt
  have hkw : dictKw ps [(t.save_key, Val.dict (t.get_reverse_args kwargs))]
      = Except.ok (C4Record t ps kwargs) := by
    unfold dictKw
    rw [show ([(t.save_key, Val.dict (t.get_reverse_args kwargs))].any
        (fun kv => (dlookup ps kv.1).isSome)) = false from by simp [hnosk]]
    rfl
  have hrec : recordStep t ps kwargs
      = Except.ok (dinsert kwargs t.save_key (C4Container t ps c kwargs)) := by
    unfold recordStep
    rw [hdet, hkw, hcont]
    rfl
  have hcf : callFired t kwargs
      = apply_with_params t (some ps) (dinsert kwargs t.save_key (C4Container t ps c kwargs)) := by
    unfold callFired
    rw [hgen]
    show (match recordStep t ps kwargs with
          | Except.error e => Except.error e
          | Except.ok kwargs2 => apply_with_params t (some ps) kwargs2) = _
    rw [hrec]
  refine ⟨?_, ?_, ?_, ?_⟩
  · unfold callT
    rw [hrm]
    simp only [Bool.false_eq_true, if_false]
    rw [if_pos hfire, hcf]
  · intro k hk
    exact dlookup_append_single ps t.save_key (Val.dict (t.get_reverse_args kwargs)) k hk
  · have hcf2 : callFired { t with deterministic := false } kwargs
        = apply_with_params t (some ps) kwargs := by
      unfold callFired
      rw [genParams_set_det, hgen]
      show (match recordStep { t with deterministic := false } ps kwargs with
            | Except.error e => Except.error e
            | Except.ok kwargs2 =>
                apply_with_params { t with deterministic := false } (some ps) kwargs2) = _
      rw [show recordStep { t with deterministic := false } ps kwargs = Except.ok kwargs from by
        unfold recordStep
        rw [deterministic_set_det]
        rfl]
      show apply_with_params { t with deterministic := false } (some ps) kwargs = _
      rw [awp_set_det]
    unfold callT
    split
    · rename_i h
      exact absurd (replay_mode_set_det t false ▸ h) (by rw [hrm]; simp)
    · split
      · rw [hcf2]
      · rename_i hg
        exact absurd hfire hg
  · have hrepl : dinsert kwargs t.save_key (C4Container t ps c kwargs)
        = replaceAll kwargs t.save_key (C4Container t ps c kwargs) := by
      unfold dinsert
      rw [hcont]
      rfl
    rw [hrepl]
    exact awp_replace t ps kwargs t.save_key (C4Container t ps c kwargs)
      him hid hdepAll hdepS rfl

/-- Witness for C4 at a recording `NoOp`-like instance with one generated
parameter, an image and an empty replay container. -/
theorem C4_deterministic_recording_witness :
    C4Concl wT4 false [("shift", Val.int 3)] [] wKW4 (RNG.mk [0]) :=
  C4_deterministic_recording wT4 false [("shift", Val.int 3)] [] wKW4 (RNG.mk [0])
    rfl rfl rfl rfl rfl rfl (by decide) rfl rfl
    (by intro k h; simp [wT4, noopT, dualBase] at h) rfl
